import Mathlib

/-!
Verification of the interactive geometry canvas (Hinhhocdehieu).

Shallow embedding of `src/utils/geometryUtils.ts` and the interaction
logic of `src/components/Canvas.tsx`.  JavaScript numbers are modelled
by `ℚ`; the transcendental functions `Math.cos`, `Math.sin` and
`Math.sqrt` are abstracted as explicit function parameters (`cosd` and
`sind` take an angle in degrees, absorbing the degree-to-radian
conversion the source performs inline; `sqrtq` stands for
`Math.sqrt`).  Square-root comparisons against a nonnegative tolerance
are embedded by comparing squares, which is equivalent for real
square roots.
-/

namespace Hinhhoc

/-- 2D point, as in `types.ts` (`Point2D`). -/
structure Point2D where
  x : ℚ
  y : ℚ
deriving Repr, DecidableEq

/-- 3D point with optional label and manual label offset, as in
`types.ts` (`Point3D`). -/
structure Point3D where
  id : String
  x : ℚ
  y : ℚ
  z : ℚ
  label : Option String := none
  color : Option String := none
  labelOffset : Option (ℚ × ℚ) := none
deriving Repr, DecidableEq

/-- Edge between two point ids, as in `types.ts` (`Edge`).  The source
field `from` is a Lean keyword, hence `fromId` / `toId`. -/
structure Edge where
  id : String
  fromId : String
  toId : String
  color : Option String := none
  label : Option String := none
deriving Repr, DecidableEq

/-- Freehand stroke, as in `types.ts` (`FreehandStroke`). -/
structure FreehandStroke where
  id : String
  points : List Point2D
  color : String
  width : ℚ
deriving Repr, DecidableEq

/-- Geometry document (the fields of `GeometryData` the canvas
interaction logic reads: points, edges, freehand drawings and the
2D/3D mode flag). -/
structure GeometryData where
  points : List Point3D
  edges : List Edge
  drawings : List FreehandStroke
  type : String
deriving Repr, DecidableEq

/-- Canvas view state: uniform scale, pan offset and the container
dimensions (`scale`, `panOffset`, `dimensions` in `Canvas.tsx`). -/
structure View where
  scale : ℚ
  panOffset : Point2D
  width : ℚ
  height : ℚ
deriving Repr, DecidableEq

/-- `toWorld` from `Canvas.tsx` (lines 169-174): screen to world for
the 2D pan/zoom plane of freehand drawing. -/
def toWorld (v : View) (screenX screenY : ℚ) : Point2D :=
  ⟨(screenX - v.width / 2 - v.panOffset.x) / v.scale,
   (screenY - v.height / 2 - v.panOffset.y) / v.scale⟩

/-- `toScreen` from `Canvas.tsx` (lines 176-181): world to screen for
the 2D pan/zoom plane of freehand drawing. -/
def toScreen (v : View) (worldX worldY : ℚ) : Point2D :=
  ⟨worldX * v.scale + v.width / 2 + v.panOffset.x,
   worldY * v.scale + v.height / 2 + v.panOffset.y⟩

/-- `projectPoint` from `geometryUtils.ts` (lines 4-32), transcribed
literally: rotate around the Y axis, rotate around the X axis, drop
the depth coordinate, scale, centre, flip Y.  `cosd a` and `sind a`
stand for `Math.cos((a * π) / 180)` and `Math.sin((a * π) / 180)`. -/
def projectPoint (cosd sind : ℚ → ℚ) (point : Point3D)
    (angleX angleY scale canvasWidth canvasHeight : ℚ) : Point2D :=
  let x := point.x * cosd angleY - point.z * sind angleY
  let z := point.x * sind angleY + point.z * cosd angleY
  let y := point.y
  let y_new := y * cosd angleX - z * sind angleX
  let _zAfterX := y * sind angleX + z * cosd angleX
  let y2 := y_new
  let projectedX := x * scale + canvasWidth / 2
  let projectedY := -y2 * scale + canvasHeight / 2
  ⟨projectedX, projectedY⟩

/-- Rotation of a 3D coordinate triple about the vertical (Y) axis, in
the handedness convention the source uses; `c` and `s` are the cosine
and sine of the rotation angle. -/
def rotateAboutY (c s : ℚ) (p : ℚ × ℚ × ℚ) : ℚ × ℚ × ℚ :=
  (p.1 * c - p.2.2 * s, p.2.1, p.1 * s + p.2.2 * c)

/-- Rotation of a 3D coordinate triple about the horizontal (X) axis,
in the handedness convention the source uses. -/
def rotateAboutX (c s : ℚ) (p : ℚ × ℚ × ℚ) : ℚ × ℚ × ℚ :=
  (p.1, p.2.1 * c - p.2.2 * s, p.2.1 * s + p.2.2 * c)

/-- `getCenterPoint` from `geometryUtils.ts` (lines 34-48). -/
def getCenterPoint (points : List Point3D) : Point3D :=
  if points.length = 0 then { id := "center", x := 0, y := 0, z := 0 }
  else
    let sum := points.foldl
      (fun acc p => (acc.1 + p.x, acc.2.1 + p.y, acc.2.2 + p.z))
      ((0 : ℚ), (0 : ℚ), (0 : ℚ))
    { id := "center",
      x := sum.1 / points.length,
      y := sum.2.1 / points.length,
      z := sum.2.2 / points.length }

/-- `get3DCentroid` from `geometryUtils.ts` (lines 50-60). -/
def get3DCentroid (points : List Point3D) : Point3D :=
  if points.length = 0 then { id := "temp_center", x := 0, y := 0, z := 0 }
  else
    let count : ℚ := points.length
    let sum := points.foldl
      (fun acc p => (acc.1 + p.x, acc.2.1 + p.y, acc.2.2 + p.z))
      ((0 : ℚ), (0 : ℚ), (0 : ℚ))
    { id := "temp_center",
      x := sum.1 / count,
      y := sum.2.1 / count,
      z := sum.2.2 / count }

/-- `get2DCentroid` from `geometryUtils.ts` (lines 63-67). -/
def get2DCentroid (points : List Point2D) : Point2D :=
  if points.length = 0 then ⟨0, 0⟩
  else
    let sum := points.foldl (fun acc p => (acc.1 + p.x, acc.2 + p.y)) ((0 : ℚ), (0 : ℚ))
    ⟨sum.1 / points.length, sum.2 / points.length⟩

/-- The scale-changing inputs of `Canvas.tsx`: wheel events
(`onWheel`, line 443), pinch pointer-move events (lines 349-353,
`delta` being the change in inter-pointer distance) and the two
explicit zoom buttons (lines 595-596). -/
inductive ZoomEvent where
  | wheel (deltaY : ℚ)
  | pinch (delta : ℚ)
  | zoomIn
  | zoomOut
deriving Repr, DecidableEq

/-- Effect of one scale-changing input on the scale, transcribed from
`Canvas.tsx`: the wheel handler computes
`min(max(5, s * (1 - e.deltaY * 0.002)), 200)`, the pinch branch
computes `min(max(5, scale * (1 + delta * 0.01)), 200)`, and the zoom
buttons compute `s * 1.2` and `s / 1.2` with no clamping. -/
def zoomStep (s : ℚ) : ZoomEvent → ℚ
  | .wheel deltaY => min (max 5 (s * (1 - deltaY * (2 / 1000)))) 200
  | .pinch delta => min (max 5 (s * (1 + delta * (1 / 100)))) 200
  | .zoomIn => s * (6 / 5)
  | .zoomOut => s / (6 / 5)

/-- Scale after a sequence of scale-changing inputs. -/
def zoomRun (s : ℚ) (evs : List ZoomEvent) : ℚ :=
  evs.foldl zoomStep s

/-- Whether a scale-changing input is a wheel or pinch event (the two
clamped kinds). -/
def ZoomEvent.clamped : ZoomEvent → Bool
  | .wheel _ => true
  | .pinch _ => true
  | .zoomIn => false
  | .zoomOut => false

/-- State of the freehand drawing capture: the in-progress stroke
(`currentStroke`) and the document's finalized stroke list
(`data.drawings`). -/
structure DrawState where
  currentStroke : List Point2D
  drawings : List FreehandStroke
deriving Repr, DecidableEq

/-- Pointer-down in draw mode (`Canvas.tsx` lines 328-330): the
current stroke is seeded with the down position converted to world
space - `setCurrentStroke([worldPos])`. -/
def drawPointerDown (v : View) (st : DrawState) (sx sy : ℚ) : DrawState :=
  { st with currentStroke := [toWorld v sx sy] }

/-- Pointer-move in draw mode while not panning (`Canvas.tsx` lines
383-387): if the current stroke is nonempty, append the move position
converted to world space. -/
def drawPointerMove (v : View) (st : DrawState) (sx sy : ℚ) : DrawState :=
  if st.currentStroke.length > 0 then
    { st with currentStroke := st.currentStroke ++ [toWorld v sx sy] }
  else st

/-- Pointer-up in draw mode (`Canvas.tsx` lines 402-408): if the
current stroke is nonempty, finalize it into the document's stroke
list with the freshly generated id, the current drawing color and
width 3, then clear the in-progress stroke. -/
def drawPointerUp (strokeId drawingColor : String) (st : DrawState) : DrawState :=
  if st.currentStroke.length > 0 then
    { currentStroke := [],
      drawings := st.drawings ++ [⟨strokeId, st.currentStroke, drawingColor, 3⟩] }
  else st

/-- A draw-mode session: pointer-down at a screen position, a list of
pointer-move screen positions, then pointer-up. -/
def drawSession (v : View) (strokeId drawingColor : String) (st : DrawState)
    (down : ℚ × ℚ) (moves : List (ℚ × ℚ)) : DrawState :=
  drawPointerUp strokeId drawingColor
    (moves.foldl (fun s q => drawPointerMove v s q.1 q.2)
      (drawPointerDown v st down.1 down.2))

/-- `getSmartLabelDirection` from `geometryUtils.ts` (lines 71-114),
transcribed literally; `sqrtq` stands for `Math.sqrt`. -/
def getSmartLabelDirection (sqrtq : ℚ → ℚ) (currentPoint : Point2D)
    (neighborPoints : List Point2D) (geometryCenter : Point2D) : Point2D :=
  let dir : Point2D :=
    if neighborPoints.length > 0 then
      let sum := neighborPoints.foldl
        (fun (acc : Point2D) nb =>
          let dx := nb.x - currentPoint.x
          let dy := nb.y - currentPoint.y
          let len := sqrtq (dx * dx + dy * dy)
          if len > 0 then ⟨acc.x + dx / len, acc.y + dy / len⟩ else acc)
        (⟨0, 0⟩ : Point2D)
      ⟨-sum.x, -sum.y⟩
    else
      ⟨currentPoint.x - geometryCenter.x, currentPoint.y - geometryCenter.y⟩
  let len := sqrtq (dir.x * dir.x + dir.y * dir.y)
  if len = 0 then ⟨707 / 1000, -(707 / 1000)⟩
  else ⟨dir.x / len, dir.y / len⟩

/-- The unit vector from `p` toward `q` (zero when the two points
coincide, where no unit vector exists), phrased as the spec phrases
it; `sqrtq` stands for `Math.sqrt`. -/
def unitToward (sqrtq : ℚ → ℚ) (p q : Point2D) : Point2D :=
  let dx := q.x - p.x
  let dy := q.y - p.y
  let len := sqrtq (dx * dx + dy * dy)
  if len > 0 then ⟨dx / len, dy / len⟩ else ⟨0, 0⟩

/-- Normalization with the fixed up-and-right fallback, phrased as the
spec phrases it: divide by the length, or return the fixed diagonal
(0.707, -0.707) when the length is zero. -/
def normalizeWithFallback (sqrtq : ℚ → ℚ) (d : Point2D) : Point2D :=
  let len := sqrtq (d.x * d.x + d.y * d.y)
  if len = 0 then ⟨707 / 1000, -(707 / 1000)⟩ else ⟨d.x / len, d.y / len⟩

/-- Smart label direction, phrased as the spec phrases it: with at
least one neighbor, the negation of the sum of unit vectors from the
point to each neighbor, normalized; with no neighbors, the vector from
the 2D centroid to the point, normalized; zero-length results fall
back to the fixed diagonal. -/
def smartLabelDirectionSpec (sqrtq : ℚ → ℚ) (currentPoint : Point2D)
    (neighborPoints : List Point2D) (geometryCenter : Point2D) : Point2D :=
  if neighborPoints.length > 0 then
    let s := neighborPoints.foldl
      (fun acc nb =>
        let u := unitToward sqrtq currentPoint nb
        Point2D.mk (acc.x + u.x) (acc.y + u.y)) ⟨0, 0⟩
    normalizeWithFallback sqrtq ⟨-s.x, -s.y⟩
  else
    normalizeWithFallback sqrtq
      ⟨currentPoint.x - geometryCenter.x, currentPoint.y - geometryCenter.y⟩

/-- Projection used for the geometry (angles stored alongside the
`View`): rotation angles around the two axes, in degrees. -/
structure Angles where
  angleX : ℚ
  angleY : ℚ
deriving Repr, DecidableEq

/-- Entry of the `projectedPoints` map of `Canvas.tsx` (lines
183-192): the projected point plus the pan offset. -/
def projectedPos (cosd sind : ℚ → ℚ) (a : Angles) (v : View) (p : Point3D) : Point2D :=
  let pt := projectPoint cosd sind p a.angleX a.angleY v.scale v.width v.height
  ⟨pt.x + v.panOffset.x, pt.y + v.panOffset.y⟩

/-- `projectedPoints.get(id)` of `Canvas.tsx`: the projected position
of the first point in the document carrying the given id (the map is
keyed by point id). -/
def lookupProjected (cosd sind : ℚ → ℚ) (a : Angles) (v : View) (d : GeometryData)
    (pid : String) : Option Point2D :=
  (d.points.find? (fun p => p.id = pid)).map (projectedPos cosd sind a v)

/-- Neighbor collection of the `labelPositions` memo of `Canvas.tsx`
(lines 213-222): for each edge incident to the point, the projected
position of the opposite endpoint, when it resolves. -/
def neighborsOf (cosd sind : ℚ → ℚ) (a : Angles) (v : View) (d : GeometryData)
    (p : Point3D) : List Point2D :=
  d.edges.foldl
    (fun acc e =>
      if e.fromId = p.id then
        match lookupProjected cosd sind a v d e.toId with
        | some n => acc ++ [n]
        | none => acc
      else if e.toId = p.id then
        match lookupProjected cosd sind a v d e.fromId with
        | some n => acc ++ [n]
        | none => acc
      else acc)
    []

/-- Label position of one point, from the `labelPositions` memo of
`Canvas.tsx` (lines 195-233): the manual `labelOffset` is added
verbatim to the projected position when present; otherwise the smart
direction (computed from the projected neighbors and the 2D centroid
of all projected points) scaled by the standard distance 25 is
added. -/
def labelPositionOf (cosd sind sqrtq : ℚ → ℚ) (a : Angles) (v : View)
    (d : GeometryData) (p : Point3D) : Point2D :=
  let pt := projectedPos cosd sind a v p
  match p.labelOffset with
  | some off => ⟨pt.x + off.1, pt.y + off.2⟩
  | none =>
    let projCenter := get2DCentroid (d.points.map (projectedPos cosd sind a v))
    let direction := getSmartLabelDirection sqrtq pt
      (neighborsOf cosd sind a v d p) projCenter
    ⟨pt.x + direction.x * 25, pt.y + direction.y * 25⟩

/-- JavaScript truthiness of the optional `label` string field: absent
and empty strings are falsy. -/
def truthyLabel : Option String → Bool
  | none => false
  | some s => s ≠ ""

/-- Result of the pointer-down hit test of `Canvas.tsx` (lines
255-306): either a label hit (which begins a label drag) or an
element hit (a point or edge id recorded in `clickedNodeId`). -/
inductive HitTarget where
  | label (pid : String)
  | element (id : String)
deriving Repr, DecidableEq

/-- Label hit predicate of `Canvas.tsx` (lines 258-268): the point has
a truthy label and the click lies within the approximate 30 by 20
box around the label anchor. -/
def labelHitB (cosd sind sqrtq : ℚ → ℚ) (a : Angles) (v : View) (d : GeometryData)
    (x y : ℚ) (p : Point3D) : Bool :=
  truthyLabel p.label &&
    (decide (|((labelPositionOf cosd sind sqrtq a v d p).x - x)| < 30) &&
     decide (|((labelPositionOf cosd sind sqrtq a v d p).y - y)| < 20))

/-- Point-disc hit predicate of `Canvas.tsx` (lines 271-281): the
click lies within the 24-pixel box around the projected point. -/
def pointHitB (cosd sind : ℚ → ℚ) (a : Angles) (v : View) (x y : ℚ)
    (p : Point3D) : Bool :=
  decide (|((projectedPos cosd sind a v p).x - x)| < 24) &&
    decide (|((projectedPos cosd sind a v p).y - y)| < 24)

/-- Clamped point-to-segment distance test of `Canvas.tsx` (lines
289-300), with the comparison `Math.sqrt(dx*dx + dy*dy) < 15`
embedded as the equivalent comparison of squares. -/
def segHitB (p1 p2 : Point2D) (x y : ℚ) : Bool :=
  let A := x - p1.x
  let B := y - p1.y
  let C := p2.x - p1.x
  let D := p2.y - p1.y
  let dot := A * C + B * D
  let len_sq := C * C + D * D
  let param := if len_sq ≠ 0 then dot / len_sq else -1
  let xx := if param < 0 then p1.x else if param > 1 then p2.x else p1.x + param * C
  let yy := if param < 0 then p1.y else if param > 1 then p2.y else p1.y + param * D
  let dx := x - xx
  let dy := y - yy
  decide (dx * dx + dy * dy < 15 * 15)

/-- Edge hit predicate of `Canvas.tsx` (lines 285-304): both endpoints
must resolve to projected points (dangling references are skipped),
and the click must lie within tolerance of the segment. -/
def edgeHitB (cosd sind : ℚ → ℚ) (a : Angles) (v : View) (d : GeometryData)
    (x y : ℚ) (e : Edge) : Bool :=
  match lookupProjected cosd sind a v d e.fromId,
        lookupProjected cosd sind a v d e.toId with
  | some p1, some p2 => segHitB p1 p2 x y
  | _, _ => false

/-- The pointer-down hit test of `Canvas.tsx` (lines 255-306): labels
are checked first (for-loop with early return), then point discs,
then edge segments; within each category the first-declared element
wins because the loops scan in declaration order. -/
def hitTest (cosd sind sqrtq : ℚ → ℚ) (a : Angles) (v : View) (d : GeometryData)
    (x y : ℚ) : Option HitTarget :=
  match d.points.find? (labelHitB cosd sind sqrtq a v d x y) with
  | some p => some (.label p.id)
  | none =>
    match d.points.find? (pointHitB cosd sind a v x y) with
    | some p => some (.element p.id)
    | none =>
      match d.edges.find? (edgeHitB cosd sind a v d x y) with
      | some e => some (.element e.id)
      | none => none

/-- State read and written by the two-pointer (pinch) branch of
`handlePointerMove` in `Canvas.tsx` (lines 346-357). -/
structure PinchState where
  scale : ℚ
  panOffset : Point2D
  lastPointerPos : Point2D
  prevPinchDist : Option ℚ
deriving Repr, DecidableEq

/-- One pointer-move event while two pointers are active (`Canvas.tsx`
lines 337-357): `q` is the moving pointer's new position, `r` the
other active pointer's position.  `dx`, `dy` are the deltas from the
last recorded event position; the inter-pointer distance is
recomputed (`Math.hypot`, embedded as `sqrtq` of the sum of squares);
when a previous pinch distance exists the scale is multiplied by
`1 + delta * 0.01` and clamped to [5, 200]; the pan offset moves by
half of `dx`, `dy`. -/
def pinchMove (sqrtq : ℚ → ℚ) (st : PinchState) (q r : Point2D) : PinchState :=
  let dx := q.x - st.lastPointerPos.x
  let dy := q.y - st.lastPointerPos.y
  let dist := sqrtq ((q.x - r.x) * (q.x - r.x) + (q.y - r.y) * (q.y - r.y))
  let scale2 :=
    match st.prevPinchDist with
    | some prev => min (max 5 (st.scale * (1 + (dist - prev) * (1 / 100)))) 200
    | none => st.scale
  { scale := scale2,
    panOffset := ⟨st.panOffset.x + dx * (1 / 2), st.panOffset.y + dy * (1 / 2)⟩,
    lastPointerPos := q,
    prevPinchDist := some dist }

/-- Flags gating the auto-rotation interval of `Canvas.tsx` (lines
119-125). -/
structure RotFlags where
  isAutoRotating : Bool
  is3D : Bool
  isDrawingMode : Bool
  isPanning : Bool
  draggingLabel : Bool
deriving Repr, DecidableEq

/-- The auto-rotation interval is installed exactly when rotation is
toggled on, the document is 3D, and no draw, pan or label drag is in
progress (`Canvas.tsx` line 121). -/
def rotActive (f : RotFlags) : Bool :=
  f.isAutoRotating && f.is3D && !f.isDrawingMode && !f.isPanning && !f.draggingLabel

/-- One timer tick (`Canvas.tsx` line 122): when the interval is
active, `setAngleY(prev => (prev + 1) % 360)`; otherwise the interval
is not installed and the angle is unchanged.  The vertical angle is
only ever written as a nonnegative integer (reset to 0 or 45, then
stepped by this tick), so it is carried as `ℕ`. -/
def rotTick (f : RotFlags) (angleY : ℕ) : ℕ :=
  if rotActive f then (angleY + 1) % 360 else angleY

/-- Angle after a sequence of ticks, each observing the flags current
at that tick. -/
def rotRun (angleY : ℕ) (fs : List RotFlags) : ℕ :=
  fs.foldl (fun ang f => rotTick f ang) angleY

/-- Componentwise value of the three-way coordinate fold shared by
`getCenterPoint` and `get3DCentroid`. -/
theorem coordFold_eq (pts : List Point3D) (a b c : ℚ) :
    pts.foldl (fun acc p => (acc.1 + p.x, acc.2.1 + p.y, acc.2.2 + p.z)) (a, b, c) =
      (a + (pts.map Point3D.x).sum, b + (pts.map Point3D.y).sum,
        c + (pts.map Point3D.z).sum) := by
  induction pts generalizing a b c with
  | nil => simp
  | cons p ps ih => simp [List.foldl_cons, ih, add_assoc]

/-- C3: for every view with nonzero scale, `toWorld` and `toScreen`
are exact inverses of each other on the 2D pan/zoom plane (exact
equality over ℚ, hence within any floating-point tolerance). -/
theorem toWorld_toScreen_roundtrip (v : View) (wx wy sx sy : ℚ) (h : v.scale ≠ 0) :
    toWorld v (toScreen v wx wy).x (toScreen v wx wy).y = ⟨wx, wy⟩ ∧
    toScreen v (toWorld v sx sy).x (toWorld v sx sy).y = ⟨sx, sy⟩ := by
  constructor <;>
    · simp only [toWorld, toScreen, Point2D.mk.injEq]
      constructor <;> (field_simp; ring)

/-- Witness for C3 at the concrete view (scale 2, pan (3, 4),
viewport 100 by 50) and the concrete point (7, 9). -/
theorem toWorld_toScreen_roundtrip_witness :
    (View.mk 2 ⟨3, 4⟩ 100 50).scale ≠ 0 ∧
    toWorld ⟨2, ⟨3, 4⟩, 100, 50⟩ (toScreen ⟨2, ⟨3, 4⟩, 100, 50⟩ 7 9).x
      (toScreen ⟨2, ⟨3, 4⟩, 100, 50⟩ 7 9).y = ⟨7, 9⟩ :=
  ⟨by norm_num, (toWorld_toScreen_roundtrip ⟨2, ⟨3, 4⟩, 100, 50⟩ 7 9 0 0 (by norm_num)).1⟩

/-- C4: `projectPoint` rotates the point first about the vertical (Y)
axis by `angleY`, then about the horizontal (X) axis by `angleX`,
drops the depth coordinate, multiplies by the scale, translates by
half the viewport extent and negates the vertical coordinate.  It is
a total function out of total data, so it never fails on any input. -/
theorem projectPoint_eq_rotate_drop (cosd sind : ℚ → ℚ) (p : Point3D)
    (angleX angleY scale canvasWidth canvasHeight : ℚ) :
    projectPoint cosd sind p angleX angleY scale canvasWidth canvasHeight =
      (let r := rotateAboutX (cosd angleX) (sind angleX)
        (rotateAboutY (cosd angleY) (sind angleY) (p.x, p.y, p.z))
      ⟨r.1 * scale + canvasWidth / 2, -r.2.1 * scale + canvasHeight / 2⟩) := by
  simp [projectPoint, rotateAboutX, rotateAboutY]

/-- C10: `getCenterPoint` and `get3DCentroid` agree on all three
coordinates for every list of points (both are the arithmetic means
of the coordinates, and both are the origin on the empty list); they
differ only in the id string attached to the result. -/
theorem getCenterPoint_eq_get3DCentroid (points : List Point3D) :
    (getCenterPoint points).x = (get3DCentroid points).x ∧
    (getCenterPoint points).y = (get3DCentroid points).y ∧
    (getCenterPoint points).z = (get3DCentroid points).z ∧
    (getCenterPoint points).id = "center" ∧
    (get3DCentroid points).id = "temp_center" ∧
    (getCenterPoint points).x = (points.map Point3D.x).sum / points.length ∧
    (getCenterPoint points).y = (points.map Point3D.y).sum / points.length ∧
    (getCenterPoint points).z = (points.map Point3D.z).sum / points.length ∧
    getCenterPoint [] = { id := "center", x := 0, y := 0, z := 0 } ∧
    get3DCentroid [] = { id := "temp_center", x := 0, y := 0, z := 0 } := by
  unfold getCenterPoint get3DCentroid
  rcases eq_or_ne points.length 0 with h | h
  · rcases List.length_eq_zero.mp h with rfl
    norm_num
  · simp only [h, if_false, if_neg h, coordFold_eq, zero_add]
    norm_num

/-- The neighbor fold of `getSmartLabelDirection` (which skips
zero-distance neighbors) agrees with summing `unitToward` vectors
(which are zero for zero-distance neighbors). -/
theorem smartFold_eq (sqrtq : ℚ → ℚ) (cp : Point2D) (nbs : List Point2D)
    (acc : Point2D) :
    nbs.foldl
      (fun (acc : Point2D) nb =>
        let dx := nb.x - cp.x
        let dy := nb.y - cp.y
        let len := sqrtq (dx * dx + dy * dy)
        if len > 0 then ⟨acc.x + dx / len, acc.y + dy / len⟩ else acc)
      acc =
    nbs.foldl
      (fun (acc : Point2D) nb =>
        let u := unitToward sqrtq cp nb
        Point2D.mk (acc.x + u.x) (acc.y + u.y))
      acc := by
  induction nbs generalizing acc with
  | nil => rfl
  | cons n ns ih =>
    simp only [List.foldl_cons]
    rw [show (let dx := n.x - cp.x
        let dy := n.y - cp.y
        let len := sqrtq (dx * dx + dy * dy)
        if len > 0 then Point2D.mk (acc.x + dx / len) (acc.y + dy / len) else acc) =
        (let u := unitToward sqrtq cp n
        Point2D.mk (acc.x + u.x) (acc.y + u.y)) from ?_, ih]
    simp only [unitToward]
    split
    · rfl
    · simp

/-- C6: `getSmartLabelDirection` computes exactly the direction the
spec describes: with at least one neighbor, the negation of the sum
of unit vectors from the point to each neighbor, normalized; with no
neighbors, the normalized vector from the 2D centroid to the point;
and the fixed diagonal (0.707, -0.707) whenever the result has zero
length.  Stated for every square-root function, since both sides use
the same abstracted `Math.sqrt`. -/
theorem getSmartLabelDirection_eq_spec (sqrtq : ℚ → ℚ) (currentPoint : Point2D)
    (neighborPoints : List Point2D) (geometryCenter : Point2D) :
    getSmartLabelDirection sqrtq currentPoint neighborPoints geometryCenter =
      smartLabelDirectionSpec sqrtq currentPoint neighborPoints geometryCenter := by
  unfold getSmartLabelDirection smartLabelDirectionSpec normalizeWithFallback
  rcases Nat.eq_zero_or_pos neighborPoints.length with h | h
  · simp [h]
  · have hp : neighborPoints.length > 0 := h
    simp only [if_pos hp]
    rw [smartFold_eq]

/-- C7: a manual `labelOffset` always takes priority over the smart
direction and is added verbatim to the projected position, whatever
the neighbor configuration. -/
theorem labelPositionOf_manualOffset (cosd sind sqrtq : ℚ → ℚ) (a : Angles)
    (v : View) (d : GeometryData) (p : Point3D) (off : ℚ × ℚ)
    (h : p.labelOffset = some off) :
    labelPositionOf cosd sind sqrtq a v d p =
      ⟨(projectedPos cosd sind a v p).x + off.1,
       (projectedPos cosd sind a v p).y + off.2⟩ := by
  unfold labelPositionOf
  rw [h]

/-- Demonstration stand-ins for the abstracted transcendental
functions, used only to instantiate theorems at concrete inputs:
`cosdDemo`/`sindDemo` are the exact values of cosine and sine at 0
degrees, and `sqrtDemo` is the exact square root on the inputs it is
applied to in the concrete scenarios (36 and 0). -/
def cosdDemo : ℚ → ℚ := fun _ => 1

/-- Sine stand-in, exact at 0 degrees. -/
def sindDemo : ℚ → ℚ := fun _ => 0

/-- Square-root stand-in, exact on the inputs used concretely. -/
def sqrtDemo : ℚ → ℚ := fun x => if x = 36 then 6 else 0

/-- A concrete document holding one labelled point "A" at the model
origin with the manual label offset (10, -5), and one labelled point
"B" with no offset, joined by an edge. -/
def demoDoc : GeometryData :=
  { points := [{ id := "A", x := 0, y := 0, z := 0, label := some "A",
                 labelOffset := some (10, -5) },
               { id := "B", x := 3, y := 0, z := 0, label := some "B" }],
    edges := [{ id := "edgeAB", fromId := "A", toId := "B" }],
    drawings := [],
    type := "2D" }

/-- The flat demo view: scale 1, no pan, zero-sized viewport, angles
0, so a model point (x, y, 0) projects to screen (x, -y). -/
def demoView : View := { scale := 1, panOffset := ⟨0, 0⟩, width := 0, height := 0 }

/-- Witness for C7: point "A" of the demo document carries the manual
offset (10, -5) and its label lands exactly at the projected position
plus (10, -5). -/
theorem labelPositionOf_manualOffset_witness :
    (demoDoc.points[0]).labelOffset = some (10, -5) ∧
    labelPositionOf cosdDemo sindDemo sqrtDemo ⟨0, 0⟩ demoView demoDoc
        (demoDoc.points[0]) =
      ⟨(projectedPos cosdDemo sindDemo ⟨0, 0⟩ demoView (demoDoc.points[0])).x + 10,
       (projectedPos cosdDemo sindDemo ⟨0, 0⟩ demoView (demoDoc.points[0])).y + (-5)⟩ :=
  ⟨rfl, labelPositionOf_manualOffset cosdDemo sindDemo sqrtDemo ⟨0, 0⟩ demoView
    demoDoc (demoDoc.points[0]) (10, -5) rfl⟩

/-- C9: while the auto-rotation interval is active the vertical angle
advances by exactly one degree per tick modulo 360 (in particular 359
wraps to 0); a draw, pan or label drag in progress deactivates the
interval so a tick leaves the angle unchanged; and over any sequence
of ticks the angle never grows to 360 or beyond. -/
theorem autoRotation_tick_spec (f : RotFlags) (ang : ℕ) (fs : List RotFlags) :
    (rotActive f = true → rotTick f ang = (ang + 1) % 360) ∧
    (rotActive f = true → rotTick f 359 = 0) ∧
    (f.isDrawingMode = true ∨ f.isPanning = true ∨ f.draggingLabel = true →
      rotTick f ang = ang) ∧
    (ang < 360 → rotRun ang fs < 360) := by
  refine ⟨fun h => by simp [rotTick, h], fun h => by simp [rotTick, h],
    fun h => ?_, fun h => ?_⟩
  · have : rotActive f = false := by
      rcases h with h | h | h <;> simp [rotActive, h]
    simp [rotTick, this]
  · induction fs generalizing ang with
    | nil => exact h
    | cons g gs ih =>
      have hstep : rotTick g ang < 360 := by
        unfold rotTick
        split
        · exact Nat.mod_lt _ (by norm_num)
        · exact h
      simpa [rotRun, List.foldl_cons] using ih (rotTick g ang) hstep

/-- Witness for C9: with rotation toggled on for a 3D document and no
draw, pan or label drag, a tick advances 5 to 6 and wraps 359 to 0;
with a draw in progress a tick leaves 5 unchanged; and a run of three
ticks from 359 stays below 360. -/
theorem autoRotation_tick_spec_witness :
    rotActive ⟨true, true, false, false, false⟩ = true ∧
    (⟨false, true, true, false, false⟩ : RotFlags).isDrawingMode = true ∧
    (359 : ℕ) < 360 ∧
    rotTick ⟨true, true, false, false, false⟩ 5 = (5 + 1) % 360 ∧
    rotTick ⟨true, true, false, false, false⟩ 359 = 0 ∧
    rotTick ⟨false, true, true, false, false⟩ 5 = 5 ∧
    rotRun 359 [⟨true, true, false, false, false⟩, ⟨true, true, false, false, false⟩,
      ⟨true, true, false, false, false⟩] < 360 := by
  refine ⟨by decide, by decide, by decide, ?_, ?_, ?_, ?_⟩
  · exact (autoRotation_tick_spec ⟨true, true, false, false, false⟩ 5 []).1 (by decide)
  · exact (autoRotation_tick_spec ⟨true, true, false, false, false⟩ 5 []).2.1 (by decide)
  · exact (autoRotation_tick_spec ⟨false, true, true, false, false⟩ 5 []).2.2.1
      (Or.inl (by decide))
  · exact (autoRotation_tick_spec ⟨true, true, false, false, false⟩ 359
      [⟨true, true, false, false, false⟩, ⟨true, true, false, false, false⟩,
        ⟨true, true, false, false, false⟩]).2.2.2 (by decide)

/-- Counterexample to C1 as stated: from the initial scale 25
(`useState(25)`), twelve presses of the zoom-in button - a sequence
of explicit zoom-button operations - drive the scale above 200,
because the zoom buttons multiply and divide by 1.2 without any
clamping. -/
theorem zoom_buttons_escape_range :
    200 < zoomRun 25 (List.replicate 12 ZoomEvent.zoomIn) := by
  norm_num [zoomRun, zoomStep, List.replicate, List.foldl_cons]

/-- C1 amended: the scale stays within [5, 200] under every sequence
of wheel and pinch-move events (the clamped operations); the explicit
zoom buttons are not clamped and can leave the range. -/
theorem zoom_clamped_invariant (s : ℚ) (evs : List ZoomEvent)
    (hall : ∀ e ∈ evs, e.clamped = true) (h5 : 5 ≤ s) (h200 : s ≤ 200) :
    5 ≤ zoomRun s evs ∧ zoomRun s evs ≤ 200 := by
  induction evs generalizing s with
  | nil => exact ⟨h5, h200⟩
  | cons e es ih =>
    have he : e.clamped = true := hall e (List.mem_cons_self _ _)
    have hstep : 5 ≤ zoomStep s e ∧ zoomStep s e ≤ 200 := by
      cases e with
      | wheel d => exact ⟨le_min (le_max_left _ _) (by norm_num), min_le_right _ _⟩
      | pinch d => exact ⟨le_min (le_max_left _ _) (by norm_num), min_le_right _ _⟩
      | zoomIn => simp [ZoomEvent.clamped] at he
      | zoomOut => simp [ZoomEvent.clamped] at he
    have hrec := ih (zoomStep s e) (fun e' he' => hall e' (List.mem_cons_of_mem _ he'))
      hstep.1 hstep.2
    simpa [zoomRun, List.foldl_cons] using hrec

/-- Witness for the amended C1: a wheel event followed by a pinch
event, starting from the initial scale 25, leaves the scale inside
[5, 200]. -/
theorem zoom_clamped_invariant_witness :
    (∀ e ∈ [ZoomEvent.wheel 1, ZoomEvent.pinch 2], e.clamped = true) ∧
    (5 : ℚ) ≤ 25 ∧ (25 : ℚ) ≤ 200 ∧
    (5 ≤ zoomRun 25 [ZoomEvent.wheel 1, ZoomEvent.pinch 2] ∧
      zoomRun 25 [ZoomEvent.wheel 1, ZoomEvent.pinch 2] ≤ 200) :=
  ⟨by decide, by norm_num, by norm_num,
    zoom_clamped_invariant 25 [ZoomEvent.wheel 1, ZoomEvent.pinch 2]
      (by decide) (by norm_num) (by norm_num)⟩

/-- Counterexample to C2 as stated: a zero-movement tap in draw mode
(pointer-down at the origin, no moves, pointer-up) finalizes one
stroke containing the single down position, not "no stroke at all",
because pointer-down already seeds the stroke with the down
position. -/
theorem tap_finalizes_one_point_stroke :
    (drawSession ⟨1, ⟨0, 0⟩, 0, 0⟩ "s1" "#ef4444" ⟨[], []⟩ (0, 0) []).drawings =
      [⟨"s1", [⟨0, 0⟩], "#ef4444", 3⟩] ∧
    ¬ ((drawSession ⟨1, ⟨0, 0⟩, 0, 0⟩ "s1" "#ef4444" ⟨[], []⟩ (0, 0) []).drawings
        = []) := by
  constructor
  · norm_num [drawSession, drawPointerDown, drawPointerMove, drawPointerUp, toWorld]
  · norm_num [drawSession, drawPointerDown, drawPointerMove, drawPointerUp, toWorld]

/-- C2 amended: in draw mode, a pointer-down at some position followed
by any list of pointer-moves and a pointer-up finalizes exactly one
stroke whose point sequence is the down position followed by the move
positions in order (all converted to world space); in particular a
zero-movement tap finalizes one stroke holding exactly the down
position, and the in-progress stroke is cleared. -/
theorem drawSession_capture (v : View) (strokeId c : String) (st : DrawState)
    (down : ℚ × ℚ) (moves : List (ℚ × ℚ)) :
    (drawSession v strokeId c st down moves).drawings =
      st.drawings ++ [⟨strokeId,
        toWorld v down.1 down.2 :: moves.map (fun q => toWorld v q.1 q.2), c, 3⟩] ∧
    (drawSession v strokeId c st down moves).currentStroke = [] ∧
    (drawSession v strokeId c st down []).drawings =
      st.drawings ++ [⟨strokeId, [toWorld v down.1 down.2], c, 3⟩] := by
  have hfold : ∀ (ms : List (ℚ × ℚ)) (cs : List Point2D) (ds : List FreehandStroke),
      cs ≠ [] →
      ms.foldl (fun s q => drawPointerMove v s q.1 q.2) ⟨cs, ds⟩ =
        ⟨cs ++ ms.map (fun q => toWorld v q.1 q.2), ds⟩ := by
    intro ms
    induction ms with
    | nil => intro cs ds _; simp
    | cons m rest ih =>
      intro cs ds hcs
      have hlen : cs.length > 0 := List.length_pos.mpr hcs
      have hstep : drawPointerMove v ⟨cs, ds⟩ m.1 m.2 =
          ⟨cs ++ [toWorld v m.1 m.2], ds⟩ := by
        simp [drawPointerMove, hlen]
      rw [List.foldl_cons, hstep, ih _ _ (by simp)]
      simp
  have hdown : drawPointerDown v st down.1 down.2 =
      ⟨[toWorld v down.1 down.2], st.drawings⟩ := rfl
  have hmain : ∀ ms : List (ℚ × ℚ),
      drawSession v strokeId c st down ms =
        ⟨[], st.drawings ++ [⟨strokeId,
          toWorld v down.1 down.2 :: ms.map (fun q => toWorld v q.1 q.2), c, 3⟩]⟩ := by
    intro ms
    unfold drawSession
    rw [hdown, hfold ms _ _ (by simp)]
    simp [drawPointerUp]
  exact ⟨by rw [hmain moves], by rw [hmain moves], by rw [hmain []]; simp⟩

/-- C5: the pointer-down hit test resolves candidates in strict
priority order - label boxes first, then point discs, then edge
segments - with the first-declared element winning within each
category (`List.find?` returns the first match in declaration
order); in particular whenever any label hit region covers the
coordinate the result is a label hit, never a point or edge. -/
theorem hitTest_priority (cosd sind sqrtq : ℚ → ℚ) (a : Angles) (v : View)
    (d : GeometryData) (x y : ℚ) :
    (∀ p, d.points.find? (labelHitB cosd sind sqrtq a v d x y) = some p →
      hitTest cosd sind sqrtq a v d x y = some (.label p.id)) ∧
    ((∃ p ∈ d.points, labelHitB cosd sind sqrtq a v d x y p = true) →
      ∃ q ∈ d.points, labelHitB cosd sind sqrtq a v d x y q = true ∧
        hitTest cosd sind sqrtq a v d x y = some (.label q.id)) ∧
    (d.points.find? (labelHitB cosd sind sqrtq a v d x y) = none →
      ∀ p, d.points.find? (pointHitB cosd sind a v x y) = some p →
        hitTest cosd sind sqrtq a v d x y = some (.element p.id)) ∧
    (d.points.find? (labelHitB cosd sind sqrtq a v d x y) = none →
      d.points.find? (pointHitB cosd sind a v x y) = none →
      ∀ e, d.edges.find? (edgeHitB cosd sind a v d x y) = some e →
        hitTest cosd sind sqrtq a v d x y = some (.element e.id)) ∧
    (d.points.find? (labelHitB cosd sind sqrtq a v d x y) = none →
      d.points.find? (pointHitB cosd sind a v x y) = none →
      d.edges.find? (edgeHitB cosd sind a v d x y) = none →
        hitTest cosd sind sqrtq a v d x y = none) := by
  refine ⟨?_, ?_, ?_, ?_, ?_⟩
  · intro p hp
    simp [hitTest, hp]
  · rintro ⟨p, hpmem, hphit⟩
    have hsome : (d.points.find? (labelHitB cosd sind sqrtq a v d x y)).isSome :=
      List.find?_isSome.mpr ⟨p, hpmem, hphit⟩
    obtain ⟨q, hq⟩ := Option.isSome_iff_exists.mp hsome
    exact ⟨q, List.mem_of_find?_eq_some hq, List.find?_some hq, by simp [hitTest, hq]⟩
  · intro h1 p hp
    simp [hitTest, h1, hp]
  · intro h1 h2 e he
    simp [hitTest, h1, h2, he]
  · intro h1 h2 h3
    simp [hitTest, h1, h2, h3]

/-- Witness for C5: at click coordinate (0, 0) of the demo document,
point "A"'s label box (anchored at (10, -5)) and point "A"'s disc
(at (0, 0)) both cover the coordinate, and the hit test resolves to
the label, never the point. -/
theorem hitTest_priority_witness :
    demoDoc.points.find?
        (labelHitB cosdDemo sindDemo sqrtDemo ⟨0, 0⟩ demoView demoDoc 0 0) =
      some (demoDoc.points[0]) ∧
    pointHitB cosdDemo sindDemo ⟨0, 0⟩ demoView 0 0 (demoDoc.points[0]) = true ∧
    hitTest cosdDemo sindDemo sqrtDemo ⟨0, 0⟩ demoView demoDoc 0 0 =
      some (.label "A") :=
  ⟨by
      norm_num [demoDoc, labelHitB, truthyLabel, labelPositionOf, projectedPos,
        projectPoint, demoView, cosdDemo, sindDemo]
      decide,
   by norm_num [demoDoc, pointHitB, projectedPos, projectPoint, demoView,
      cosdDemo, sindDemo],
   (hitTest_priority cosdDemo sindDemo sqrtDemo ⟨0, 0⟩ demoView demoDoc 0 0).1
     (demoDoc.points[0])
     (by
        norm_num [demoDoc, labelHitB, truthyLabel, labelPositionOf, projectedPos,
          projectPoint, demoView, cosdDemo, sindDemo]
        decide)⟩

/-- Counterexample to C8 as stated: pointers at (0, 0) and (10, 0)
(midpoint (5, 0)), the first pointer moving to (4, 0) (new midpoint
(7, 0), midpoint delta (2, 0), half of it (1, 0)).  The code
translates the pan offset by half of the moving pointer's raw delta,
giving (2, 0) - the full midpoint delta here - not by half of the
midpoint delta. -/
theorem pinch_pan_counterexample :
    (pinchMove sqrtDemo ⟨25, ⟨0, 0⟩, ⟨0, 0⟩, some 10⟩ ⟨4, 0⟩ ⟨10, 0⟩).panOffset =
      ⟨2, 0⟩ ∧
    ¬ ((pinchMove sqrtDemo ⟨25, ⟨0, 0⟩, ⟨0, 0⟩, some 10⟩ ⟨4, 0⟩ ⟨10, 0⟩).panOffset =
        ⟨0 + ((4 + 10) / 2 - (0 + 10) / 2) / 2, 0 + ((0 + 0) / 2 - (0 + 0) / 2) / 2⟩) := by
  constructor <;> norm_num [pinchMove, sqrtDemo, Point2D.mk.injEq]

/-- C8 amended: on a pointer-move event while two pointers are active
and a previous pinch distance is recorded, the scale is multiplied by
`1 + 0.01 * (newDistance - previousDistance)` and clamped into
[5, 200], and the pan offset is translated by half of the raw delta
between the event position and the last recorded event position
(which equals the full midpoint delta when consecutive events track
the same pointer and the other pointer is stationary); the new
inter-pointer distance is recorded for the next event. -/
theorem pinchMove_spec (sqrtq : ℚ → ℚ) (st : PinchState) (q r : Point2D) (prev : ℚ)
    (h : st.prevPinchDist = some prev) :
    (pinchMove sqrtq st q r).scale =
      min (max 5 (st.scale *
        (1 + (sqrtq ((q.x - r.x) * (q.x - r.x) + (q.y - r.y) * (q.y - r.y)) - prev)
          * (1 / 100)))) 200 ∧
    5 ≤ (pinchMove sqrtq st q r).scale ∧
    (pinchMove sqrtq st q r).scale ≤ 200 ∧
    (pinchMove sqrtq st q r).panOffset =
      ⟨st.panOffset.x + (q.x - st.lastPointerPos.x) * (1 / 2),
       st.panOffset.y + (q.y - st.lastPointerPos.y) * (1 / 2)⟩ ∧
    (pinchMove sqrtq st q r).prevPinchDist =
      some (sqrtq ((q.x - r.x) * (q.x - r.x) + (q.y - r.y) * (q.y - r.y))) := by
  refine ⟨by simp [pinchMove, h], ?_, ?_, by simp [pinchMove], by simp [pinchMove]⟩
  · simp only [pinchMove, h]
    exact le_min (le_max_left _ _) (by norm_num)
  · simp only [pinchMove, h]
    exact min_le_right _ _

/-- Witness for the amended C8 at the concrete pinch state (scale 25,
previous distance 10) with the first pointer moving to (4, 0) and the
second at (10, 0). -/
theorem pinchMove_spec_witness :
    (PinchState.mk 25 ⟨0, 0⟩ ⟨0, 0⟩ (some 10)).prevPinchDist = some 10 ∧
    (pinchMove sqrtDemo ⟨25, ⟨0, 0⟩, ⟨0, 0⟩, some 10⟩ ⟨4, 0⟩ ⟨10, 0⟩).panOffset =
      ⟨(0 : ℚ) + (4 - 0) * (1 / 2), (0 : ℚ) + (0 - 0) * (1 / 2)⟩ ∧
    5 ≤ (pinchMove sqrtDemo ⟨25, ⟨0, 0⟩, ⟨0, 0⟩, some 10⟩ ⟨4, 0⟩ ⟨10, 0⟩).scale ∧
    (pinchMove sqrtDemo ⟨25, ⟨0, 0⟩, ⟨0, 0⟩, some 10⟩ ⟨4, 0⟩ ⟨10, 0⟩).scale ≤ 200 :=
  ⟨rfl,
   (pinchMove_spec sqrtDemo ⟨25, ⟨0, 0⟩, ⟨0, 0⟩, some 10⟩ ⟨4, 0⟩ ⟨10, 0⟩ 10 rfl).2.2.2.1,
   (pinchMove_spec sqrtDemo ⟨25, ⟨0, 0⟩, ⟨0, 0⟩, some 10⟩ ⟨4, 0⟩ ⟨10, 0⟩ 10 rfl).2.1,
   (pinchMove_spec sqrtDemo ⟨25, ⟨0, 0⟩, ⟨0, 0⟩, some 10⟩ ⟨4, 0⟩ ⟨10, 0⟩ 10 rfl).2.2.1⟩

end Hinhhoc
